import Mathlib

/-!
Shallow embedding of the price-ingestion scripts of the TestYourStrategy
repository (directory scripts/), together with proofs of the spec's claims
about them.

Modelling conventions:
* The SQLite store is a record of in-memory tables (lists of rows, in
  insertion order).  A SELECT without ORDER BY reads rows in table order.
* A pandas history row is a RawBar whose numeric fields are Option Rat:
  none stands for a NaN (missing) cell, some x for a defined value.
* Environment effects are explicit parameters: freshly generated row ids
  come from a generator function, the current timestamp is a parameter,
  and the success or failure of each individual INSERT (the per-row
  try/except in the scripts) is an oracle from the insert position to Bool.
-/

namespace TYS

/-- One row of the pandas history dataframe handed to the ingestion code:
the formatted date string plus OHLCV cells, where none models a NaN cell. -/
structure RawBar where
  date : String
  opn : Option Rat
  high : Option Rat
  low : Option Rat
  close : Option Rat
  volume : Option Rat
deriving DecidableEq, Repr

/-- A data point as built by the stock fetchers (scripts/fetch_daily_data.py,
fetch_daily_simple.py, fetch_daily_wal.py, add_missing_stocks.py): all of
open, high, low, close defined, volume defaulted to 0 when missing. -/
structure DataPoint where
  date : String
  opn : Rat
  high : Rat
  low : Rat
  close : Rat
  volume : Rat
deriving DecidableEq, Repr

/-- The per-row conversion in the fetch loops: a row with a NaN open, close,
high or low is skipped; otherwise the row is converted with NaN volume
coerced to 0 (fetch_daily_data.py lines 54-66 and the identical loops in
fetch_daily_simple.py, fetch_daily_wal.py, add_missing_stocks.py). -/
def rawToDataPoint? (b : RawBar) : Option DataPoint :=
  match b.opn, b.close, b.high, b.low with
  | some o, some c, some h, some l =>
      some { date := b.date, opn := o, high := h, low := l, close := c,
             volume := b.volume.getD 0 }
  | _, _, _, _ => none

/-- fetch_daily_data_for_symbol (fetch_daily_data.py lines 31-72): the
provider call either raises (modelled as Except.error, caught inside the
function, which then returns the empty list) or yields a history dataframe
(a list of RawBar, empty when the provider has no data); defined rows are
converted, NaN-filtered rows dropped. -/
def fetch_daily_data_for_symbol (hist : Except String (List RawBar)) : List DataPoint :=
  match hist with
  | .error _ => []
  | .ok bars => bars.filterMap rawToDataPoint?

/-- A row of the Asset table. -/
structure Asset where
  id : String
  symbol : String
  name : String
  type : String
  exchange : String
  createdAt : Nat
  updatedAt : Nat
deriving DecidableEq, Repr

/-- A row of the PriceData table. -/
structure PriceRow where
  id : String
  assetId : String
  date : String
  opn : Rat
  high : Rat
  low : Rat
  close : Rat
  volume : Rat
  createdAt : Nat
deriving DecidableEq, Repr

/-- The relevant tables of prisma/dev.db. -/
structure Store where
  assets : List Asset
  prices : List PriceRow
deriving DecidableEq, Repr

/-- get_asset_id (fetch_daily_data.py lines 19-23): SELECT id FROM Asset
WHERE symbol = ? and fetchone, i.e. the first matching row in table order. -/
def get_asset_id (assets : List Asset) (symbol : String) : Option String :=
  (assets.find? (fun a => a.symbol == symbol)).map Asset.id

/-- The PriceData row built by the INSERT in update_daily_data from a data
point, a fresh id, the asset id and the ingestion timestamp. -/
def mkPriceRow (id assetId : String) (createdAt : Nat) (dp : DataPoint) : PriceRow :=
  { id := id, assetId := assetId, date := dp.date, opn := dp.opn, high := dp.high,
    low := dp.low, close := dp.close, volume := dp.volume, createdAt := createdAt }

/-- The insert loop of update_daily_data (fetch_daily_data.py lines 95-117):
each new data point is inserted inside its own try/except; the oracle ok
says whether the INSERT at a given position succeeds, a failed insert is
skipped and the loop continues.  Returns the inserted rows and their count. -/
def insert_new_points (ok : Nat → Bool) (gen : Nat → String) (asset_id : String)
    (timestamp : Nat) : List DataPoint → Nat → List PriceRow × Nat
  | [], _ => ([], 0)
  | dp :: rest, i =>
    let r := insert_new_points ok gen asset_id timestamp rest (i + 1)
    if ok i then (mkPriceRow (gen i) asset_id timestamp dp :: r.1, r.2 + 1)
    else r

/-- The dates already stored for an asset: SELECT date FROM PriceData WHERE
assetId = ? (fetch_daily_data.py lines 84-85). -/
def existing_dates (prices : List PriceRow) (asset_id : String) : List String :=
  (prices.filter (fun r => r.assetId == asset_id)).map PriceRow.date

/-- update_daily_data (fetch_daily_data.py lines 74-119): empty input or an
unknown symbol returns 0 with the store untouched; otherwise bars whose date
already exists for the asset are filtered out and the remaining ones
inserted one by one, returning the count of successful inserts. -/
def update_daily_data (ok : Nat → Bool) (gen : Nat → String) (timestamp : Nat)
    (store : Store) (symbol : String) (data_points : List DataPoint) : Store × Nat :=
  if data_points.isEmpty then (store, 0)
  else
    match get_asset_id store.assets symbol with
    | none => (store, 0)
    | some asset_id =>
      let existing := existing_dates store.prices asset_id
      let new_data_points := data_points.filter (fun dp => decide (dp.date ∉ existing))
      if new_data_points.isEmpty then (store, 0)
      else
        let r := insert_new_points ok gen asset_id timestamp new_data_points 0
        ({ store with prices := store.prices ++ r.1 }, r.2)

/-- The spec's per-asset uniqueness invariant: for every assetId the stored
PriceData dates for that asset contain no repeated value. -/
def no_duplicate_dates (store : Store) : Prop :=
  ∀ asset_id : String, (existing_dates store.prices asset_id).Nodup

/-- The inputs of one skip-on-duplicate ingestion run: the symbol, the
fetched data points, and the run's environment (per-insert success oracle,
row-id generator, ingestion timestamp). -/
structure RunInput where
  symbol : String
  data_points : List DataPoint
  ok : Nat → Bool
  gen : Nat → String
  timestamp : Nat

/-- A sequence of ingestion runs, each one calling update_daily_data on the
store left by the previous one. -/
def run_all (runs : List RunInput) (store : Store) : Store :=
  runs.foldl
    (fun s r => (update_daily_data r.ok r.gen r.timestamp s r.symbol r.data_points).1) store

/-- The Asset row built by the INSERT in get_or_create_asset
(import_stocks_fast.py lines 24-27): name defaults to the symbol, type to
STOCK, exchange to NASDAQ, both timestamps to the current time. -/
def mkAsset (id symbol name : String) (timestamp : Nat) : Asset :=
  { id := id, symbol := symbol, name := name, type := "STOCK", exchange := "NASDAQ",
    createdAt := timestamp, updatedAt := timestamp }

/-- get_or_create_asset (import_stocks_fast.py lines 9-29): look the symbol
up; if found return the existing id and leave the table alone, otherwise
insert one new Asset row carrying a freshly generated id and return that id. -/
def get_or_create_asset (fresh_id : String) (timestamp : Nat) (assets : List Asset)
    (symbol : String) : String × List Asset :=
  match assets.find? (fun a => a.symbol == symbol) with
  | some a => (a.id, assets)
  | none => (fresh_id, assets ++ [mkAsset fresh_id symbol symbol timestamp])

/-- What happens while one symbol is processed inside the driver loop of
fetch_daily_data.py main (lines 147-176): either an exception reaches the
loop-level except clause (raise; in the source the statements that can raise
there are the SELECTs of update_daily_data, which run before any INSERT, so
the store is still unchanged when the exception is caught), or the body runs
with a given provider outcome for the history download (hist). -/
inductive SymbolOutcome where
  | raise (msg : String)
  | hist (r : Except String (List RawBar))

/-- The driver's summary counters (fetch_daily_data.py main). -/
structure RunStats where
  total_inserted : Nat
  successful_updates : Nat
  failed_updates : Nat
deriving DecidableEq, Repr

/-- The body of the per-symbol loop of fetch_daily_data.py main (lines
147-167): an exception is caught and counted as one failure; an empty fetch
result is logged as WARNING and counted as one failure; otherwise
update_daily_data runs and the symbol counts as successful whether or not it
inserted anything. -/
def process_symbol (env : String → SymbolOutcome) (ok : String → Nat → Bool)
    (gen : String → Nat → String) (timestamp : Nat) (store : Store) (stats : RunStats)
    (symbol : String) : Store × RunStats :=
  match env symbol with
  | .raise _ => (store, { stats with failed_updates := stats.failed_updates + 1 })
  | .hist r =>
      let data_points := fetch_daily_data_for_symbol r
      if data_points.isEmpty then
        (store, { stats with failed_updates := stats.failed_updates + 1 })
      else
        let u := update_daily_data (ok symbol) (gen symbol) timestamp store symbol data_points
        (u.1, { stats with total_inserted := stats.total_inserted + u.2,
                           successful_updates := stats.successful_updates + 1 })

/-- The per-symbol driver loop of fetch_daily_data.py main: sequential fold
of process_symbol over the symbol universe. -/
def process_symbols (env : String → SymbolOutcome) (ok : String → Nat → Bool)
    (gen : String → Nat → String) (timestamp : Nat) :
    List String → Store → RunStats → Store × RunStats
  | [], store, stats => (store, stats)
  | s :: rest, store, stats =>
      let p := process_symbol env ok gen timestamp store stats s
      process_symbols env ok gen timestamp rest p.1 p.2

/-- A row of the CryptocurrencyPrice table. -/
structure CryptoPriceRow where
  id : String
  cryptocurrencyId : String
  date : String
  opn : Option Rat
  high : Option Rat
  low : Option Rat
  close : Option Rat
  volume : Option Rat
  marketCap : Option Rat
  createdAt : String
deriving DecidableEq, Repr

/-- The CryptocurrencyPrice row built by the INSERT OR REPLACE in
fetch_and_store_crypto_data (fetch_all_crypto_data.py lines 185-204): the
OHLCV cells are stored exactly as fetched (a NaN cell stays missing; no
filtering and no volume default), marketCap is always null. -/
def mkCryptoRow (id cid created : String) (b : RawBar) : CryptoPriceRow :=
  { id := id, cryptocurrencyId := cid, date := b.date, opn := b.opn, high := b.high,
    low := b.low, close := b.close, volume := b.volume, marketCap := none,
    createdAt := created }

/-- Modelled from the spec: the relational schema (the Prisma schema file
defining the CryptocurrencyPrice table and its constraints) is not under
src/.  Per the spec the crypto price table has upsert-by-replace semantics
keyed on a same-date row for the same cryptocurrency, so the INSERT OR
REPLACE removes any stored row with the same (cryptocurrencyId, date) pair
and appends the new row. -/
def insert_or_replace_crypto_price (row : CryptoPriceRow) (table : List CryptoPriceRow) :
    List CryptoPriceRow :=
  (table.filter
    (fun r => !(r.cryptocurrencyId == row.cryptocurrencyId && r.date == row.date))) ++ [row]

/-- The insert loop of fetch_and_store_crypto_data (fetch_all_crypto_data.py
lines 185-204 and the identical loop in fetch_crypto_data.py lines 109-134):
every history row is written via INSERT OR REPLACE, with a fresh id per row. -/
def store_crypto_rows (gen : Nat → String) (cid created : String) :
    List RawBar → Nat → List CryptoPriceRow → List CryptoPriceRow
  | [], _, table => table
  | b :: rest, i, table =>
      store_crypto_rows gen cid created rest (i + 1)
        (insert_or_replace_crypto_price (mkCryptoRow (gen i) cid created b) table)

/-- fetch_and_store_crypto_data: a provider exception is caught (and the
transaction rolled back), leaving the table unchanged; an empty history also
leaves it unchanged; otherwise all rows are written via INSERT OR REPLACE. -/
def fetch_and_store_crypto_data (gen : Nat → String) (cid created : String)
    (hist : Except String (List RawBar)) (table : List CryptoPriceRow) :
    List CryptoPriceRow :=
  match hist with
  | .error _ => table
  | .ok bars => store_crypto_rows gen cid created bars 0 table

/-- The outcome of one sqlite3.connect attempt in fetch_daily_simple.py
wait_for_database: success, an OperationalError carrying the text database
is locked, or some other connection error. -/
inductive ConnAttempt where
  | ok
  | locked
  | failed (msg : String)
deriving DecidableEq, Repr

/-- wait_for_database (fetch_daily_simple.py lines 16-30): up to a given
retry budget of connection attempts; a locked error sleeps 2 seconds and
retries, any other error is re-raised immediately, and exhausting the budget
raises.  Returns the result (index of the successful attempt, or the raised
message) together with the total seconds slept. -/
def wait_for_database (outcomes : Nat → ConnAttempt) : Nat → Nat → Except String Nat × Nat
  | 0, _ => (.error "Database remained locked after all retries", 0)
  | budget + 1, i =>
    match outcomes i with
    | .ok => (.ok i, 0)
    | .locked =>
        let r := wait_for_database outcomes budget (i + 1)
        (r.1, r.2 + 2)
    | .failed msg => (.error msg, 0)

/-- The connection phase of fetch_daily_simple.py main (lines 120-193):
wait_for_database is called with the default budget of 10 attempts; any
exception it raises is caught by the except clause and main returns 1, which
becomes the process exit status via sys.exit(main()).  The rest of a
successful run is abstracted as run_result. -/
def fetch_daily_simple_main (outcomes : Nat → ConnAttempt) (run_result : Nat) : Nat :=
  match (wait_for_database outcomes 10 0).1 with
  | .error _ => 1
  | .ok _ => run_result

/-- A concrete history row with every cell defined, for instantiations. -/
def sampleBar (d : String) : RawBar :=
  { date := d, opn := some 1, high := some 2, low := some 1, close := some 2,
    volume := some 10 }

/-- A concrete data point, for instantiations. -/
def sampleDp (d : String) : DataPoint :=
  { date := d, opn := 1, high := 2, low := 1, close := 2, volume := 10 }

/-- A concrete Asset row for a symbol, for instantiations. -/
def sampleAsset (id symbol : String) : Asset :=
  { id := id, symbol := symbol, name := symbol, type := "STOCK", exchange := "NASDAQ",
    createdAt := 0, updatedAt := 0 }

/-- A store holding asset rows for the symbols A and C, for instantiations. -/
def sampleStoreAC : Store :=
  { assets := [sampleAsset "a1" "A", sampleAsset "a2" "C"], prices := [] }

/-- A driver environment where processing the symbol B raises and every
other symbol fetches one good bar, for instantiations. -/
def envRaiseB : String → SymbolOutcome :=
  fun s => if s = "B" then .raise "boom" else .hist (.ok [sampleBar "2024-01-02 00:00:00"])

/-- A concrete ingestion run over two distinct dates, for instantiations. -/
def sampleRun : RunInput :=
  { symbol := "A",
    data_points := [sampleDp "2024-01-01 00:00:00", sampleDp "2024-01-02 00:00:00"],
    ok := fun _ => true, gen := fun i => toString i, timestamp := 7 }

/-- The row-matching test of the crypto replace key: the row belongs to the
given cryptocurrency and carries the given date. -/
def same_crypto_date (cid d : String) (r : CryptoPriceRow) : Bool :=
  r.cryptocurrencyId == cid && r.date == d

/-- Ten data points with pairwise distinct dates, for instantiations. -/
def sampleDps10 : List DataPoint := (List.range 10).map (fun i => sampleDp (toString i))

/-- A store holding one asset row for AAPL, for instantiations. -/
def sampleStoreA : Store := { assets := [sampleAsset "a1" "AAPL"], prices := [] }

/-- A history row whose open cell is missing, for instantiations. -/
def barNoOpen : RawBar :=
  { date := "d", opn := none, high := some 2, low := some 1, close := some 2,
    volume := some 5 }

/-- A history row whose volume cell is missing, for instantiations. -/
def barNoVolume : RawBar :=
  { date := "d2", opn := some 1, high := some 2, low := some 1, close := some 2,
    volume := none }

/-- A previously stored crypto price row, for instantiations. -/
def sampleOldCryptoRow : CryptoPriceRow :=
  { id := "old", cryptocurrencyId := "c1", date := "2024-01-01 00:00:00",
    opn := some 3, high := some 3, low := some 3, close := some 3, volume := some 3,
    marketCap := none, createdAt := "t0" }

/-! ### Supporting lemmas -/

/-- The insert loop keeps exactly the data points whose INSERT succeeds:
position-indexed filtering of the input list. -/
theorem insert_new_points_eq (ok : Nat → Bool) (gen : Nat → String) (aid : String)
    (t : Nat) (l : List DataPoint) : ∀ i : Nat,
    insert_new_points ok gen aid t l i =
      (((List.enumFrom i l).filter (fun p => ok p.1)).map
          (fun p => mkPriceRow (gen p.1) aid t p.2),
       ((List.enumFrom i l).filter (fun p => ok p.1)).length) := by
  induction l with
  | nil => intro i; simp [insert_new_points]
  | cons dp rest ih =>
      intro i
      rw [insert_new_points, ih (i + 1), List.enumFrom_cons, List.filter_cons]
      by_cases h : ok i <;> simp [h]

/-- Every row produced by the insert loop carries the asset id it was given. -/
theorem insert_new_points_assetId (ok : Nat → Bool) (gen : Nat → String) (aid : String)
    (t : Nat) (l : List DataPoint) (i : Nat) :
    ∀ r ∈ (insert_new_points ok gen aid t l i).1, r.assetId = aid := by
  rw [insert_new_points_eq]
  intro r hr
  obtain ⟨p, _, rfl⟩ := List.mem_map.mp hr
  rfl

/-- The dates of the rows produced by the insert loop form a sublist of the
dates of the input data points. -/
theorem insert_new_points_dates_sublist (ok : Nat → Bool) (gen : Nat → String)
    (aid : String) (t : Nat) (l : List DataPoint) (i : Nat) :
    ((insert_new_points ok gen aid t l i).1.map PriceRow.date).Sublist
      (l.map DataPoint.date) := by
  rw [insert_new_points_eq]
  have h₁ : ((((List.enumFrom i l).filter (fun p => ok p.1)).map
      (fun p => mkPriceRow (gen p.1) aid t p.2)).map PriceRow.date)
      = ((List.enumFrom i l).filter (fun p => ok p.1)).map (fun p => p.2.date) := by
    rw [List.map_map]; rfl
  rw [h₁]
  have h₂ : (List.enumFrom i l).map (fun p => p.2.date) = l.map DataPoint.date := by
    have := List.enumFrom_map_snd i l
    calc (List.enumFrom i l).map (fun p => p.2.date)
        = ((List.enumFrom i l).map Prod.snd).map DataPoint.date := by rw [List.map_map]; rfl
      _ = l.map DataPoint.date := by rw [this]
  calc (((List.enumFrom i l).filter (fun p => ok p.1)).map (fun p => p.2.date)).Sublist
        ((List.enumFrom i l).map (fun p => p.2.date)) :=
        List.Sublist.map _ (List.filter_sublist _)
    _ = l.map DataPoint.date := h₂

/-- When every INSERT succeeds the insert loop writes one row per data point,
in order. -/
theorem insert_new_points_all_ok (gen : Nat → String) (aid : String) (t : Nat)
    (l : List DataPoint) (i : Nat) :
    insert_new_points (fun _ => true) gen aid t l i =
      ((List.enumFrom i l).map (fun p => mkPriceRow (gen p.1) aid t p.2),
       l.length) := by
  rw [insert_new_points_eq]
  simp

/-- existing_dates distributes over table append. -/
theorem existing_dates_append (p q : List PriceRow) (aid : String) :
    existing_dates (p ++ q) aid = existing_dates p aid ++ existing_dates q aid := by
  simp [existing_dates, List.filter_append]

/-- On rows that all belong to the asset, existing_dates is just the dates. -/
theorem existing_dates_of_all (q : List PriceRow) (aid : String)
    (h : ∀ r ∈ q, r.assetId = aid) :
    existing_dates q aid = q.map PriceRow.date := by
  unfold existing_dates
  rw [List.filter_eq_self.mpr]
  intro r hr
  simp [h r hr]

/-- On rows that all belong to another asset, existing_dates is empty. -/
theorem existing_dates_of_none (q : List PriceRow) (aid : String)
    (h : ∀ r ∈ q, r.assetId ≠ aid) :
    existing_dates q aid = [] := by
  unfold existing_dates
  rw [List.filter_eq_nil_iff.mpr]
  · rfl
  · intro r hr
    simp [h r hr]

/-- update_daily_data when nothing is filtered in: the store is untouched. -/
theorem update_daily_data_skip_case (ok : Nat → Bool) (gen : Nat → String) (t : Nat)
    (store : Store) (symbol : String) (dps : List DataPoint) (aid : String)
    (hga : get_asset_id store.assets symbol = some aid)
    (h₁ : (dps.filter
        (fun dp => decide (dp.date ∉ existing_dates store.prices aid))).isEmpty = true) :
    update_daily_data ok gen t store symbol dps = (store, 0) := by
  have h₁' : ∀ x ∈ dps, x.date ∈ existing_dates store.prices aid := by
    have hnil : dps.filter
        (fun dp => decide (dp.date ∉ existing_dates store.prices aid)) = [] := by
      simpa [List.isEmpty_iff] using h₁
    intro x hx
    by_contra hnot
    have hxf : x ∈ dps.filter
        (fun dp => decide (dp.date ∉ existing_dates store.prices aid)) :=
      List.mem_filter.mpr ⟨hx, by simpa using hnot⟩
    rw [hnil] at hxf
    exact (List.not_mem_nil x) hxf
  by_cases h₀ : dps.isEmpty
  · simp [update_daily_data, h₀]
  · simp only [update_daily_data, h₀, hga, Bool.false_eq_true, if_false]
    simp [h₀, hga]
    intro x hx hnot
    exact absurd (h₁' x hx) hnot

/-- update_daily_data in the inserting case: the duplicate-filtered points go
through the insert loop and land appended to the PriceData table. -/
theorem update_daily_data_insert_case (ok : Nat → Bool) (gen : Nat → String) (t : Nat)
    (store : Store) (symbol : String) (dps : List DataPoint) (aid : String)
    (h₀ : dps.isEmpty = false)
    (hga : get_asset_id store.assets symbol = some aid)
    (h₁ : (dps.filter
        (fun dp => decide (dp.date ∉ existing_dates store.prices aid))).isEmpty = false) :
    update_daily_data ok gen t store symbol dps =
      ({ store with prices := store.prices ++
          (insert_new_points ok gen aid t
            (dps.filter (fun dp => decide (dp.date ∉ existing_dates store.prices aid))) 0).1 },
       (insert_new_points ok gen aid t
          (dps.filter (fun dp => decide (dp.date ∉ existing_dates store.prices aid))) 0).2) := by
  have hne : dps.filter
      (fun dp => decide (dp.date ∉ existing_dates store.prices aid)) ≠ [] := by
    simpa [List.isEmpty_iff] using h₁
  simp [update_daily_data, h₀, hga]
  intro hall
  exfalso
  obtain ⟨x, hx⟩ := List.exists_mem_of_ne_nil _ hne
  obtain ⟨hxd, hpx⟩ := List.mem_filter.mp hx
  simp only [decide_eq_true_eq] at hpx
  exact hpx (hall x hxd)

/-- The insert loop with an all-success oracle writes rows whose dates are
exactly the dates of its input. -/
theorem insert_all_ok_dates (gen : Nat → String) (aid : String) (t : Nat)
    (l : List DataPoint) :
    ((insert_new_points (fun _ => true) gen aid t l 0).1.map PriceRow.date)
      = l.map DataPoint.date := by
  rw [insert_new_points_all_ok]
  calc ((List.enumFrom 0 l).map (fun p => mkPriceRow (gen p.1) aid t p.2)).map PriceRow.date
      = (List.enumFrom 0 l).map (fun p => p.2.date) := by rw [List.map_map]; rfl
    _ = ((List.enumFrom 0 l).map Prod.snd).map DataPoint.date := by rw [List.map_map]; rfl
    _ = l.map DataPoint.date := by rw [List.enumFrom_map_snd]

/-! ### The claims -/

/-- Claim C10: in the daily-update variants, when the symbol has no Asset
row, update_daily_data returns 0 and leaves the store (assets and prices)
completely unchanged, whatever data points were fetched.  (update_stock_data
in fetch_daily_wal.py guards the same way.) -/
theorem C10_missing_asset (ok : Nat → Bool) (gen : Nat → String) (t : Nat)
    (store : Store) (symbol : String) (data_points : List DataPoint)
    (h : get_asset_id store.assets symbol = none) :
    update_daily_data ok gen t store symbol data_points = (store, 0) := by
  by_cases h₀ : data_points.isEmpty <;> simp [update_daily_data, h₀, h]

/-- One skip-on-duplicate run preserves the per-asset no-duplicate-dates
invariant, provided the fetched series itself has pairwise distinct dates. -/
theorem update_preserves_nodup (ok : Nat → Bool) (gen : Nat → String) (t : Nat)
    (store : Store) (symbol : String) (dps : List DataPoint)
    (hdps : (dps.map DataPoint.date).Nodup) (hstore : no_duplicate_dates store) :
    no_duplicate_dates (update_daily_data ok gen t store symbol dps).1 := by
  cases h₀ : dps.isEmpty with
  | true => simpa [update_daily_data, h₀] using hstore
  | false =>
  cases hga : get_asset_id store.assets symbol with
  | none => simpa [update_daily_data, h₀, hga] using hstore
  | some aid =>
  cases h₁ : (dps.filter
      (fun dp => decide (dp.date ∉ existing_dates store.prices aid))).isEmpty with
  | true =>
      rw [update_daily_data_skip_case ok gen t store symbol dps aid hga h₁]
      exact hstore
  | false =>
      rw [update_daily_data_insert_case ok gen t store symbol dps aid h₀ hga h₁]
      intro aid'
      set nw := dps.filter
        (fun dp => decide (dp.date ∉ existing_dates store.prices aid)) with hnw
      set rows := (insert_new_points ok gen aid t nw 0).1 with hrows
      show (existing_dates (store.prices ++ rows) aid').Nodup
      rw [existing_dates_append]
      by_cases haid : aid' = aid
      · subst haid
        rw [existing_dates_of_all rows aid'
          (by rw [hrows]; exact insert_new_points_assetId ok gen aid' t nw 0)]
        refine List.Nodup.append (hstore aid') ?_ ?_
        · have hsub : (rows.map PriceRow.date).Sublist (nw.map DataPoint.date) := by
            rw [hrows]; exact insert_new_points_dates_sublist ok gen aid' t nw 0
          have hnwsub : (nw.map DataPoint.date).Sublist (dps.map DataPoint.date) := by
            rw [hnw]; exact List.Sublist.map _ (List.filter_sublist dps)
          exact List.Nodup.sublist (hsub.trans hnwsub) hdps
        · intro a ha hb
          have hsub : (rows.map PriceRow.date).Sublist (nw.map DataPoint.date) := by
            rw [hrows]; exact insert_new_points_dates_sublist ok gen aid' t nw 0
          have hbnw : a ∈ nw.map DataPoint.date := hsub.subset hb
          obtain ⟨dp, hdpnw, rfl⟩ := List.mem_map.mp hbnw
          rw [hnw] at hdpnw
          obtain ⟨_, hpred⟩ := List.mem_filter.mp hdpnw
          simp only [decide_eq_true_eq] at hpred
          exact hpred ha
      · rw [existing_dates_of_none rows aid'
          (fun r hr => by
            rw [hrows] at hr
            rw [insert_new_points_assetId ok gen aid t nw 0 r hr]
            exact fun he => haid he.symm)]
        simpa using hstore aid'

/-- Claim C1: for every assetId, after any number of skip-on-duplicate
ingestion runs, each calling update_daily_data with a list of fetched bars
(whose date strings are pairwise distinct, as produced by the fetcher from a
daily-interval dataframe), the stored PriceData dates for that assetId have
no repeated value: a bar whose date already exists for the asset is filtered
out, and no run creates two PriceData rows with the same (assetId, date). -/
theorem C1_no_duplicate_dates : ∀ (runs : List RunInput) (store : Store),
    (∀ r ∈ runs, (r.data_points.map DataPoint.date).Nodup) →
    no_duplicate_dates store → no_duplicate_dates (run_all runs store) := by
  intro runs
  induction runs with
  | nil => intro store _ h; exact h
  | cons r rest ih =>
      intro store hruns hstore
      have hstep := update_preserves_nodup r.ok r.gen r.timestamp store r.symbol
        r.data_points (hruns r (List.mem_cons_self r rest)) hstore
      have hrest := ih ((update_daily_data r.ok r.gen r.timestamp store r.symbol
        r.data_points).1) (fun q hq => hruns q (List.mem_cons_of_mem r hq)) hstep
      simpa [run_all, List.foldl_cons] using hrest

theorem C1_witness :
    (∀ r ∈ [sampleRun], (r.data_points.map DataPoint.date).Nodup) ∧
    no_duplicate_dates sampleStoreAC ∧
    no_duplicate_dates (run_all [sampleRun] sampleStoreAC) := by
  have h₁ : ∀ r ∈ [sampleRun], (r.data_points.map DataPoint.date).Nodup := by
    intro r hr
    rw [List.mem_singleton] at hr
    subst hr
    decide
  exact ⟨h₁, fun _ => List.nodup_nil,
    C1_no_duplicate_dates [sampleRun] sampleStoreAC h₁ (fun _ => List.nodup_nil)⟩

/-- Claim C2: running the skip-on-duplicate ingestion twice with the same
fetched series is idempotent.  For every list of data points and every
starting store, a second update_daily_data call on the state produced by the
first call (with every INSERT succeeding) inserts nothing and returns 0, so
the state and the row count after two runs equal those after one run. -/
theorem C2_second_run_inserts_nothing (gen₁ gen₂ : Nat → String) (t₁ t₂ : Nat)
    (store : Store) (symbol : String) (data_points : List DataPoint) :
    update_daily_data (fun _ => true) gen₂ t₂
        (update_daily_data (fun _ => true) gen₁ t₁ store symbol data_points).1
        symbol data_points
      = ((update_daily_data (fun _ => true) gen₁ t₁ store symbol data_points).1, 0) := by
  cases h₀ : data_points.isEmpty with
  | true => simp [update_daily_data, h₀]
  | false =>
  cases hga : get_asset_id store.assets symbol with
  | none => simp [update_daily_data, h₀, hga]
  | some aid =>
  cases h₁ : (data_points.filter
      (fun dp => decide (dp.date ∉ existing_dates store.prices aid))).isEmpty with
  | true =>
      have hfirst := update_daily_data_skip_case (fun _ => true) gen₁ t₁ store symbol
        data_points aid hga h₁
      rw [hfirst]
      exact update_daily_data_skip_case (fun _ => true) gen₂ t₂ store symbol
        data_points aid hga h₁
  | false =>
      have hfirst := update_daily_data_insert_case (fun _ => true) gen₁ t₁ store symbol
        data_points aid h₀ hga h₁
      rw [hfirst]
      set nw := data_points.filter
        (fun dp => decide (dp.date ∉ existing_dates store.prices aid)) with hnw
      set rows := (insert_new_points (fun _ => true) gen₁ aid t₁ nw 0).1 with hrows
      have hassets : ({ store with prices := store.prices ++ rows } : Store).assets
          = store.assets := rfl
      have hga₂ : get_asset_id ({ store with prices := store.prices ++ rows } : Store).assets
          symbol = some aid := by rw [hassets, hga]
      have hex₂ : existing_dates ({ store with prices := store.prices ++ rows } : Store).prices
          aid = existing_dates store.prices aid ++ nw.map DataPoint.date := by
        show existing_dates (store.prices ++ rows) aid = _
        rw [existing_dates_append,
          existing_dates_of_all rows aid
            (insert_new_points_assetId (fun _ => true) gen₁ aid t₁ nw 0),
          hrows, insert_all_ok_dates]
      have hnil : data_points.filter (fun dp => decide (dp.date ∉
          existing_dates ({ store with prices := store.prices ++ rows } : Store).prices aid))
          = [] := by
        rw [List.filter_eq_nil_iff]
        intro dp hdp
        simp only [decide_eq_true_eq, not_not]
        rw [hex₂]
        by_cases hmem : dp.date ∈ existing_dates store.prices aid
        · exact List.mem_append_left _ hmem
        · refine List.mem_append_right _ ?_
          have hdpnw : dp ∈ nw := by
            rw [hnw]
            exact List.mem_filter.mpr ⟨hdp, by simpa using hmem⟩
          exact List.mem_map.mpr ⟨dp, hdpnw, rfl⟩
      exact update_daily_data_skip_case (fun _ => true) gen₂ t₂
        { store with prices := store.prices ++ rows } symbol data_points aid hga₂
        (by rw [hnil]; rfl)

/-- Claim C5: for every batch handed to the row writer, a failing INSERT is
skipped without aborting the remaining bars, the appended rows are exactly
the filtered-in bars whose insert succeeded (by position), and the returned
count is exactly the number of successful inserts, which may be less than
the number of new bars. -/
theorem C5_partial_failure (ok : Nat → Bool) (gen : Nat → String) (t : Nat)
    (store : Store) (symbol : String) (dps : List DataPoint) (aid : String)
    (hga : get_asset_id store.assets symbol = some aid) :
    update_daily_data ok gen t store symbol dps =
      ({ store with prices := store.prices ++
          ((List.enumFrom 0 (dps.filter
              (fun dp => decide (dp.date ∉ existing_dates store.prices aid)))).filter
            (fun p => ok p.1)).map (fun p => mkPriceRow (gen p.1) aid t p.2) },
       ((List.enumFrom 0 (dps.filter
            (fun dp => decide (dp.date ∉ existing_dates store.prices aid)))).filter
          (fun p => ok p.1)).length) := by
  cases h₀ : dps.isEmpty with
  | true =>
      have hdps : dps = [] := List.isEmpty_iff.mp h₀
      subst hdps
      simp [update_daily_data]
  | false =>
  cases h₁ : (dps.filter
      (fun dp => decide (dp.date ∉ existing_dates store.prices aid))).isEmpty with
  | true =>
      rw [update_daily_data_skip_case ok gen t store symbol dps aid hga h₁]
      have hnil : dps.filter
          (fun dp => decide (dp.date ∉ existing_dates store.prices aid)) = [] :=
        List.isEmpty_iff.mp h₁
      rw [hnil]
      simp
  | false =>
      rw [update_daily_data_insert_case ok gen t store symbol dps aid h₀ hga h₁]
      rw [insert_new_points_eq]

theorem C5_witness :
    get_asset_id sampleStoreA.assets "AAPL" = some "a1" ∧
    update_daily_data (fun i => decide (i ≠ 4)) (fun i => toString i) 7 sampleStoreA
        "AAPL" sampleDps10 =
      ({ sampleStoreA with prices := sampleStoreA.prices ++
          ((List.enumFrom 0 (sampleDps10.filter
              (fun dp => decide (dp.date ∉ existing_dates sampleStoreA.prices "a1")))).filter
            (fun p => decide (p.1 ≠ 4))).map (fun p => mkPriceRow (toString p.1) "a1" 7 p.2) },
       ((List.enumFrom 0 (sampleDps10.filter
            (fun dp => decide (dp.date ∉ existing_dates sampleStoreA.prices "a1")))).filter
          (fun p => decide (p.1 ≠ 4))).length) ∧
    (update_daily_data (fun i => decide (i ≠ 4)) (fun i => toString i) 7 sampleStoreA
        "AAPL" sampleDps10).2 = 9 ∧
    sampleDps10.length = 10 :=
  ⟨rfl,
   C5_partial_failure (fun i => decide (i ≠ 4)) (fun i => toString i) 7 sampleStoreA
     "AAPL" sampleDps10 "a1" rfl,
   by decide, by decide⟩

/-- Claim C6: the symbol resolver is idempotent.  get_or_create_asset
returns the id of an existing row for the symbol unchanged with no insert;
for an unseen symbol it appends exactly one new Asset row carrying the
fresh id and returns that id; and a second call with the same symbol is a
pure lookup returning the same id with the store unchanged. -/
theorem C6_resolver_idempotent (assets : List Asset) (symbol f₁ f₂ : String)
    (t₁ t₂ : Nat) :
    (∀ a : Asset, assets.find? (fun b => b.symbol == symbol) = some a →
        get_or_create_asset f₁ t₁ assets symbol = (a.id, assets)) ∧
    (assets.find? (fun b => b.symbol == symbol) = none →
        get_or_create_asset f₁ t₁ assets symbol
          = (f₁, assets ++ [mkAsset f₁ symbol symbol t₁])) ∧
    get_or_create_asset f₂ t₂ (get_or_create_asset f₁ t₁ assets symbol).2 symbol
      = ((get_or_create_asset f₁ t₁ assets symbol).1,
         (get_or_create_asset f₁ t₁ assets symbol).2) := by
  refine ⟨?_, ?_, ?_⟩
  · intro a ha
    simp [get_or_create_asset, ha]
  · intro ha
    simp [get_or_create_asset, ha]
  · cases hf : assets.find? (fun b => b.symbol == symbol) with
    | some a => simp [get_or_create_asset, hf]
    | none =>
        simp only [get_or_create_asset, hf]
        rw [List.find?_append, hf]
        simp [mkAsset]

theorem C6_witness :
    [sampleAsset "a1" "AAPL"].find? (fun b => b.symbol == "AAPL")
        = some (sampleAsset "a1" "AAPL") ∧
    get_or_create_asset "f1" 5 [sampleAsset "a1" "AAPL"] "AAPL"
        = ("a1", [sampleAsset "a1" "AAPL"]) ∧
    ([] : List Asset).find? (fun b => b.symbol == "TSLA") = none ∧
    get_or_create_asset "f2" 6 [] "TSLA" = ("f2", [mkAsset "f2" "TSLA" "TSLA" 6]) ∧
    get_or_create_asset "f3" 7 (get_or_create_asset "f2" 6 [] "TSLA").2 "TSLA"
      = ((get_or_create_asset "f2" 6 [] "TSLA").1,
         (get_or_create_asset "f2" 6 [] "TSLA").2) :=
  ⟨rfl,
   (C6_resolver_idempotent [sampleAsset "a1" "AAPL"] "AAPL" "f1" "f1" 5 5).1 _ rfl,
   rfl,
   (C6_resolver_idempotent [] "TSLA" "f2" "f3" 6 7).2.1 rfl,
   (C6_resolver_idempotent [] "TSLA" "f2" "f3" 6 7).2.2⟩

/-- The per-symbol loop processes an appended universe by processing the
first part and then the second from the state it left. -/
theorem process_symbols_append (env : String → SymbolOutcome) (ok : String → Nat → Bool)
    (gen : String → Nat → String) (t : Nat) (l₁ l₂ : List String) (store : Store)
    (stats : RunStats) :
    process_symbols env ok gen t (l₁ ++ l₂) store stats =
      process_symbols env ok gen t l₂
        (process_symbols env ok gen t l₁ store stats).1
        (process_symbols env ok gen t l₁ store stats).2 := by
  induction l₁ generalizing store stats with
  | nil => simp [process_symbols]
  | cons s rest ih => simp [process_symbols, ih]

/-- Claim C7: an exception raised while processing one symbol is caught at
the loop boundary, counted as exactly one failure, and never aborts the run:
the symbols before and after the raising one are processed exactly as they
would be with only the failure counter bumped by one. -/
theorem C7_symbol_failure_isolation (env : String → SymbolOutcome)
    (ok : String → Nat → Bool) (gen : String → Nat → String) (t : Nat)
    (pre post : List String) (b : String) (store : Store) (stats : RunStats)
    (msg : String) (hb : env b = .raise msg) :
    process_symbols env ok gen t (pre ++ b :: post) store stats =
      process_symbols env ok gen t post
        (process_symbols env ok gen t pre store stats).1
        { (process_symbols env ok gen t pre store stats).2 with
          failed_updates :=
            (process_symbols env ok gen t pre store stats).2.failed_updates + 1 } := by
  rw [process_symbols_append]
  simp [process_symbols, process_symbol, hb]

theorem C7_witness :
    envRaiseB "B" = .raise "boom" ∧
    process_symbols envRaiseB (fun _ _ => true) (fun s i => s ++ toString i) 7
        (["A"] ++ "B" :: ["C"]) sampleStoreAC ⟨0, 0, 0⟩ =
      process_symbols envRaiseB (fun _ _ => true) (fun s i => s ++ toString i) 7 ["C"]
        (process_symbols envRaiseB (fun _ _ => true) (fun s i => s ++ toString i) 7
          ["A"] sampleStoreAC ⟨0, 0, 0⟩).1
        { (process_symbols envRaiseB (fun _ _ => true) (fun s i => s ++ toString i) 7
            ["A"] sampleStoreAC ⟨0, 0, 0⟩).2 with
          failed_updates :=
            (process_symbols envRaiseB (fun _ _ => true) (fun s i => s ++ toString i) 7
              ["A"] sampleStoreAC ⟨0, 0, 0⟩).2.failed_updates + 1 } ∧
    (process_symbols envRaiseB (fun _ _ => true) (fun s i => s ++ toString i) 7
        (["A"] ++ "B" :: ["C"]) sampleStoreAC ⟨0, 0, 0⟩).2 = ⟨2, 2, 1⟩ ∧
    ((process_symbols envRaiseB (fun _ _ => true) (fun s i => s ++ toString i) 7
        (["A"] ++ "B" :: ["C"]) sampleStoreAC ⟨0, 0, 0⟩).1.prices.map
      PriceRow.assetId) = ["a1", "a2"] :=
  ⟨rfl,
   C7_symbol_failure_isolation envRaiseB (fun _ _ => true) (fun s i => s ++ toString i) 7
     ["A"] ["C"] "B" sampleStoreAC ⟨0, 0, 0⟩ "boom" rfl,
   by decide, by decide⟩

/-- Claim C8, counterexample: the series fetcher does not surface
network/provider failures — it catches them and returns the empty list,
indistinguishable from a symbol with no data — and the driver of
fetch_daily_data.py counts a symbol whose fetch came back empty as a failed
update (failed_updates goes from 0 to 1), not as a skip. -/
theorem C8_counterexample :
    fetch_daily_data_for_symbol (.error "connection timed out") = [] ∧
    (process_symbols (fun _ => .hist (.ok [])) (fun _ _ => true) (fun _ _ => "") 0
        ["AAPL"] (Store.mk [] []) ⟨0, 0, 0⟩).2 = ⟨0, 0, 1⟩ :=
  ⟨rfl, rfl⟩

/-- Claim C8 as amended: when the provider has no data the fetcher returns
an empty sequence, not an error; but a network/provider failure is caught
inside the fetcher and also becomes the empty sequence rather than a
surfaced error, and the caller counts any symbol whose fetch result is empty
— whether from no data or from a swallowed failure — as failed for the run,
leaving the store unchanged and moving on. -/
theorem C8_empty_vs_failure_amended (msg : String) (env : String → SymbolOutcome)
    (ok : String → Nat → Bool) (gen : String → Nat → String) (t : Nat) (sym : String)
    (store : Store) (stats : RunStats)
    (h : env sym = .hist (.ok []) ∨ env sym = .hist (.error msg)) :
    fetch_daily_data_for_symbol (.error msg) = [] ∧
    process_symbols env ok gen t [sym] store stats
      = (store, { stats with failed_updates := stats.failed_updates + 1 }) := by
  refine ⟨rfl, ?_⟩
  rcases h with h | h <;>
    simp [process_symbols, process_symbol, h, fetch_daily_data_for_symbol]

theorem C8_witness :
    ((fun _ : String => SymbolOutcome.hist (.ok [])) "AAPL" = SymbolOutcome.hist (.ok [])
      ∨ (fun _ : String => SymbolOutcome.hist (.ok [])) "AAPL"
          = SymbolOutcome.hist (.error "net down")) ∧
    (fetch_daily_data_for_symbol (.error "net down") = [] ∧
     process_symbols (fun _ => SymbolOutcome.hist (.ok [])) (fun _ _ => true)
        (fun _ _ => "") 0 ["AAPL"] (Store.mk [] []) ⟨0, 0, 0⟩
       = (Store.mk [] [], { RunStats.mk 0 0 0 with failed_updates := 0 + 1 })) :=
  ⟨Or.inl rfl,
   C8_empty_vs_failure_amended "net down" (fun _ => SymbolOutcome.hist (.ok []))
     (fun _ _ => true) (fun _ _ => "") 0 "AAPL" (Store.mk [] []) ⟨0, 0, 0⟩ (Or.inl rfl)⟩

/-- Skipping a prefix of locked attempts: each locked attempt adds one fixed
2-second sleep and the loop goes on with the remaining budget. -/
theorem wait_for_database_locked_prefix (outcomes : Nat → ConnAttempt) :
    ∀ (k budget i : Nat), (∀ j, j < k → outcomes (i + j) = .locked) →
      wait_for_database outcomes (budget + k) i
        = ((wait_for_database outcomes budget (i + k)).1,
           (wait_for_database outcomes budget (i + k)).2 + 2 * k) := by
  intro k
  induction k with
  | zero => intro budget i _; simp
  | succ k ih =>
      intro budget i h
      have h₀ : outcomes i = .locked := by simpa using h 0 (Nat.succ_pos k)
      have hrest : ∀ j, j < k → outcomes ((i + 1) + j) = .locked := by
        intro j hj
        have := h (j + 1) (Nat.succ_lt_succ hj)
        simpa [Nat.add_comm, Nat.add_assoc, Nat.add_left_comm] using this
      have hb : budget + (k + 1) = (budget + k) + 1 := rfl
      rw [hb]
      simp only [wait_for_database, h₀]
      rw [ih budget (i + 1) hrest]
      have hidx : i + 1 + k = i + (k + 1) := by omega
      rw [hidx]
      simp only [Prod.mk.injEq, true_and]
      omega

/-- Claim C9: on a storage-level locked error at connection time the driver
retries after a fixed 2-second delay, up to 10 attempts; if all 10 attempts
hit the locked error the run aborts (wait_for_database raises, having slept
2 seconds after each of the 10 attempts) and main exits with status 1, while
a non-locked connection error is raised immediately, with no further retry
and no further sleep, and a success after k locked attempts used exactly k
fixed delays. -/
theorem C9_lock_retry (outcomes : Nat → ConnAttempt) (run_result : Nat) :
    ((∀ i, i < 10 → outcomes i = .locked) →
        wait_for_database outcomes 10 0
            = (.error "Database remained locked after all retries", 20) ∧
        fetch_daily_simple_main outcomes run_result = 1) ∧
    (∀ k msg, k < 10 → (∀ j, j < k → outcomes j = .locked) →
        outcomes k = .failed msg →
        wait_for_database outcomes 10 0 = (.error msg, 2 * k)) ∧
    (∀ k, k < 10 → (∀ j, j < k → outcomes j = .locked) → outcomes k = .ok →
        wait_for_database outcomes 10 0 = (.ok k, 2 * k)) := by
  refine ⟨?_, ?_, ?_⟩
  · intro h
    have h10 := wait_for_database_locked_prefix outcomes 10 0 0
      (fun j hj => by simpa using h j hj)
    have hwait : wait_for_database outcomes 10 0
        = (.error "Database remained locked after all retries", 20) := by
      have : (10 : Nat) = 0 + 10 := by omega
      rw [this, h10]
      simp [wait_for_database]
    exact ⟨hwait, by simp [fetch_daily_simple_main, hwait]⟩
  · intro k msg hk hlock hkv
    obtain ⟨b, hb⟩ : ∃ b, (10 : Nat) = (b + 1) + k := ⟨9 - k, by omega⟩
    have hskip := wait_for_database_locked_prefix outcomes k (b + 1) 0
      (fun j hj => by simpa using hlock j hj)
    rw [hb, hskip]
    simp [wait_for_database, hkv]
  · intro k hk hlock hkv
    obtain ⟨b, hb⟩ : ∃ b, (10 : Nat) = (b + 1) + k := ⟨9 - k, by omega⟩
    have hskip := wait_for_database_locked_prefix outcomes k (b + 1) 0
      (fun j hj => by simpa using hlock j hj)
    rw [hb, hskip]
    simp [wait_for_database, hkv]

theorem C9_witness :
    (∀ i, i < 10 → (fun _ : Nat => ConnAttempt.locked) i = ConnAttempt.locked) ∧
    wait_for_database (fun _ => ConnAttempt.locked) 10 0
        = (.error "Database remained locked after all retries", 20) ∧
    fetch_daily_simple_main (fun _ => ConnAttempt.locked) 0 = 1 ∧
    (fun i => if i = 0 then ConnAttempt.failed "disk error" else ConnAttempt.locked) 0
        = ConnAttempt.failed "disk error" ∧
    wait_for_database
        (fun i => if i = 0 then ConnAttempt.failed "disk error" else ConnAttempt.locked)
        10 0
      = (.error "disk error", 2 * 0) := by
  have hall := (C9_lock_retry (fun _ => ConnAttempt.locked) 0).1 (fun _ _ => rfl)
  refine ⟨fun _ _ => rfl, hall.1, hall.2, rfl, ?_⟩
  exact (C9_lock_retry
      (fun i => if i = 0 then ConnAttempt.failed "disk error" else ConnAttempt.locked)
      0).2.1 0 "disk error" (by omega) (fun j hj => absurd hj (Nat.not_lt_zero j)) rfl

/-- Replacing with a row that matches the key leaves exactly that row as the
key's occupant. -/
theorem filter_insert_or_replace_same (cid d : String) (row : CryptoPriceRow)
    (t : List CryptoPriceRow) (hcid : row.cryptocurrencyId = cid) (hd : row.date = d) :
    (insert_or_replace_crypto_price row t).filter (same_crypto_date cid d) = [row] := by
  unfold insert_or_replace_crypto_price
  rw [List.filter_append, List.filter_filter]
  have h₁ : t.filter (fun r => same_crypto_date cid d r &&
      !(r.cryptocurrencyId == row.cryptocurrencyId && r.date == row.date)) = [] := by
    rw [List.filter_eq_nil_iff]
    intro r _
    simp only [same_crypto_date, hcid, hd, Bool.and_eq_true, beq_iff_eq,
      Bool.not_eq_true', Bool.and_eq_false_iff, beq_eq_false_iff_ne, ne_eq]
    tauto
  have h₂ : [row].filter (same_crypto_date cid d) = [row] := by
    simp [same_crypto_date, hcid, hd]
  rw [h₁, h₂, List.nil_append]

/-- Replacing with a row for a different key does not change the rows stored
under the key. -/
theorem filter_insert_or_replace_other (cid d : String) (row : CryptoPriceRow)
    (t : List CryptoPriceRow) (hrow : same_crypto_date cid d row = false) :
    (insert_or_replace_crypto_price row t).filter (same_crypto_date cid d)
      = t.filter (same_crypto_date cid d) := by
  unfold insert_or_replace_crypto_price
  rw [List.filter_append, List.filter_filter]
  have h₂ : [row].filter (same_crypto_date cid d) = [] := by
    simp [hrow]
  rw [h₂, List.append_nil]
  apply List.filter_congr
  intro r _
  cases hsc : same_crypto_date cid d r with
  | false => simp
  | true =>
      simp only [Bool.true_and]
      have hkey : (r.cryptocurrencyId == row.cryptocurrencyId && r.date == row.date)
          = false := by
        simp only [same_crypto_date, Bool.and_eq_true, beq_iff_eq] at hsc
        simp only [same_crypto_date, Bool.and_eq_false_iff, beq_eq_false_iff_ne,
          ne_eq] at hrow
        simp only [Bool.and_eq_false_iff, beq_eq_false_iff_ne, ne_eq]
        rcases hrow with hrow | hrow
        · exact Or.inl (fun he => hrow (by rw [← he, hsc.1]))
        · exact Or.inr (fun he => hrow (by rw [← he, hsc.2]))
      simp [hkey]

/-- Writing bars none of which carries the key's date leaves the rows stored
under the key unchanged. -/
theorem store_crypto_rows_other (gen : Nat → String) (cid created d : String) :
    ∀ (bars : List RawBar) (i : Nat) (t : List CryptoPriceRow),
      (∀ b ∈ bars, b.date ≠ d) →
      (store_crypto_rows gen cid created bars i t).filter (same_crypto_date cid d)
        = t.filter (same_crypto_date cid d) := by
  intro bars
  induction bars with
  | nil => intro i t _; rfl
  | cons b rest ih =>
      intro i t h
      rw [store_crypto_rows]
      rw [ih (i + 1) _ (fun q hq => h q (List.mem_cons_of_mem b hq))]
      exact filter_insert_or_replace_other cid d _ t
        (by simp [same_crypto_date, mkCryptoRow, beq_eq_false_iff_ne,
              h b (List.mem_cons_self b rest)])

/-- The crypto insert loop processes an appended history by processing the
first part and then the second from the table it left. -/
theorem store_crypto_rows_append (gen : Nat → String) (cid created : String) :
    ∀ (l₁ l₂ : List RawBar) (i : Nat) (t : List CryptoPriceRow),
      store_crypto_rows gen cid created (l₁ ++ l₂) i t
        = store_crypto_rows gen cid created l₂ (i + l₁.length)
            (store_crypto_rows gen cid created l₁ i t) := by
  intro l₁
  induction l₁ with
  | nil => intro l₂ i t; simp [store_crypto_rows]
  | cons b rest ih =>
      intro l₂ i t
      simp only [List.cons_append, store_crypto_rows, List.length_cons, List.append_eq]
      rw [ih]
      have hx : i + 1 + rest.length = i + (rest.length + 1) := by omega
      rw [hx]

/-- Claim C3: in the crypto variant, re-ingesting a bar whose date already
exists for a cryptocurrency overwrites the stored row instead of adding a
second one: after fetch_and_store_crypto_data processes a history containing
that bar (dates pairwise distinct in a daily history), exactly one
CryptocurrencyPrice row exists for that (cryptocurrencyId, date) and it
carries the freshly fetched open/high/low/close/volume values. -/
theorem C3_crypto_replace (gen : Nat → String) (cid created : String)
    (bars : List RawBar) (table : List CryptoPriceRow) (b : RawBar)
    (hmem : b ∈ bars) (hnodup : (bars.map RawBar.date).Nodup)
    (hprev : ∃ r ∈ table, same_crypto_date cid b.date r = true) :
    ((fetch_and_store_crypto_data gen cid created (.ok bars) table).filter
        (same_crypto_date cid b.date)).length = 1 ∧
    ∀ r ∈ (fetch_and_store_crypto_data gen cid created (.ok bars) table).filter
        (same_crypto_date cid b.date),
      r.opn = b.opn ∧ r.high = b.high ∧ r.low = b.low ∧ r.close = b.close ∧
      r.volume = b.volume := by
  obtain ⟨pre, post, rfl⟩ := List.append_of_mem hmem
  have hpost : ∀ q ∈ post, q.date ≠ b.date := by
    intro q hq heq
    have hsplit : (pre.map RawBar.date ++ b.date :: post.map RawBar.date).Nodup := by
      simpa using hnodup
    have htail : (b.date :: post.map RawBar.date).Nodup :=
      List.Nodup.of_append_right hsplit
    have hnotmem : b.date ∉ post.map RawBar.date := (List.nodup_cons.mp htail).1
    exact hnotmem (heq ▸ List.mem_map_of_mem RawBar.date hq)
  have hfilter : (fetch_and_store_crypto_data gen cid created (.ok (pre ++ b :: post))
      table).filter (same_crypto_date cid b.date)
      = [mkCryptoRow (gen (0 + pre.length)) cid created b] := by
    show (store_crypto_rows gen cid created (pre ++ b :: post) 0 table).filter
        (same_crypto_date cid b.date) = _
    rw [store_crypto_rows_append gen cid created pre (b :: post) 0 table]
    rw [store_crypto_rows]
    rw [store_crypto_rows_other gen cid created b.date post _ _ hpost]
    exact filter_insert_or_replace_same cid b.date _ _ rfl rfl
  rw [hfilter]
  refine ⟨rfl, ?_⟩
  intro r hr
  rw [List.mem_singleton] at hr
  subst hr
  exact ⟨rfl, rfl, rfl, rfl, rfl⟩

theorem C3_witness :
    sampleBar "2024-01-01 00:00:00" ∈ [sampleBar "2024-01-01 00:00:00"] ∧
    (([sampleBar "2024-01-01 00:00:00"].map RawBar.date).Nodup) ∧
    (∃ r ∈ [sampleOldCryptoRow],
        same_crypto_date "c1" (sampleBar "2024-01-01 00:00:00").date r = true) ∧
    ((fetch_and_store_crypto_data (fun i => toString i) "c1" "t1"
          (.ok [sampleBar "2024-01-01 00:00:00"]) [sampleOldCryptoRow]).filter
        (same_crypto_date "c1" (sampleBar "2024-01-01 00:00:00").date)).length = 1 ∧
    ∀ r ∈ (fetch_and_store_crypto_data (fun i => toString i) "c1" "t1"
          (.ok [sampleBar "2024-01-01 00:00:00"]) [sampleOldCryptoRow]).filter
        (same_crypto_date "c1" (sampleBar "2024-01-01 00:00:00").date),
      r.opn = (sampleBar "2024-01-01 00:00:00").opn ∧
      r.high = (sampleBar "2024-01-01 00:00:00").high ∧
      r.low = (sampleBar "2024-01-01 00:00:00").low ∧
      r.close = (sampleBar "2024-01-01 00:00:00").close ∧
      r.volume = (sampleBar "2024-01-01 00:00:00").volume := by
  have hmem : sampleBar "2024-01-01 00:00:00" ∈ [sampleBar "2024-01-01 00:00:00"] :=
    List.mem_singleton.mpr rfl
  have hnodup : (([sampleBar "2024-01-01 00:00:00"].map RawBar.date).Nodup) := by decide
  have hprev : ∃ r ∈ [sampleOldCryptoRow],
      same_crypto_date "c1" (sampleBar "2024-01-01 00:00:00").date r = true :=
    ⟨sampleOldCryptoRow, List.mem_singleton.mpr rfl, rfl⟩
  have hmain := C3_crypto_replace (fun i => toString i) "c1" "t1"
    [sampleBar "2024-01-01 00:00:00"] [sampleOldCryptoRow]
    (sampleBar "2024-01-01 00:00:00") hmem hnodup hprev
  exact ⟨hmem, hnodup, hprev, hmain.1, hmain.2⟩

/-- Claim C4, counterexample: the crypto ingestion variant performs no NaN
filtering at all — a fetched bar with a missing close is persisted anyway,
with the missing value stored as-is, contradicting the claim that in every
ingestion variant a bar missing any of open/high/low/close is dropped. -/
theorem C4_counterexample :
    fetch_and_store_crypto_data (fun _ => "p0") "c1" "t1"
        (.ok [{ date := "2024-01-01 00:00:00", opn := some 1, high := some 2,
                low := some 1, close := none, volume := some 5 }]) []
      = [{ id := "p0", cryptocurrencyId := "c1", date := "2024-01-01 00:00:00",
           opn := some 1, high := some 2, low := some 1, close := none,
           volume := some 5, marketCap := none, createdAt := "t1" }] := rfl

/-- Claim C4 as amended: in the stock ingestion variants a fetched bar
missing any of open, high, low, close is dropped and never persisted, and a
bar missing only volume is persisted with volume 0; the crypto variant
applies no missing-value filtering and persists every fetched bar with its
cells stored exactly as fetched (a missing volume is not coerced to 0). -/
theorem C4_nan_filtering_amended (b : RawBar) :
    ((b.opn = none ∨ b.high = none ∨ b.low = none ∨ b.close = none) →
        rawToDataPoint? b = none) ∧
    (∀ o hi lo c : Rat, b.opn = some o → b.high = some hi → b.low = some lo →
        b.close = some c →
        rawToDataPoint? b
          = some { date := b.date, opn := o, high := hi, low := lo, close := c,
                   volume := b.volume.getD 0 }) ∧
    (∀ (gen : Nat → String) (cid created : String) (table : List CryptoPriceRow),
        fetch_and_store_crypto_data gen cid created (.ok [b]) table
          = insert_or_replace_crypto_price (mkCryptoRow (gen 0) cid created b) table) := by
  refine ⟨?_, ?_, ?_⟩
  · intro h
    obtain ⟨d, o, hi, lo, c, v⟩ := b
    rcases h with h | h | h | h
    · subst h; rfl
    · subst h; cases o <;> cases lo <;> cases c <;> rfl
    · subst h; cases o <;> cases hi <;> cases c <;> rfl
    · subst h; cases o <;> cases hi <;> cases lo <;> rfl
  · intro o hi lo c ho hh hl hc
    obtain ⟨d, o', hi', lo', c', v⟩ := b
    simp only at ho hh hl hc
    subst ho; subst hh; subst hl; subst hc
    rfl
  · intro gen cid created table
    rfl

theorem C4_witness :
    barNoOpen.opn = none ∧
    rawToDataPoint? barNoOpen = none ∧
    barNoVolume.opn = some 1 ∧ barNoVolume.high = some 2 ∧ barNoVolume.low = some 1 ∧
    barNoVolume.close = some 2 ∧ barNoVolume.volume = none ∧
    rawToDataPoint? barNoVolume
      = some { date := "d2", opn := 1, high := 2, low := 1, close := 2, volume := 0 } ∧
    fetch_and_store_crypto_data (fun _ => "p1") "c1" "t1" (.ok [barNoVolume]) []
      = insert_or_replace_crypto_price (mkCryptoRow "p1" "c1" "t1" barNoVolume) [] := by
  refine ⟨rfl, ?_, rfl, rfl, rfl, rfl, rfl, ?_, ?_⟩
  · exact (C4_nan_filtering_amended barNoOpen).1 (Or.inl rfl)
  · exact (C4_nan_filtering_amended barNoVolume).2.1 1 2 1 2 rfl rfl rfl rfl
  · exact (C4_nan_filtering_amended barNoVolume).2.2 (fun _ => "p1") "c1" "t1" []

theorem C10_witness :
    get_asset_id (Store.mk [] []).assets "TSLA" = none ∧
    update_daily_data (fun _ => true) (fun i => toString i) 7 (Store.mk [] []) "TSLA"
      [sampleDp "2024-01-01 00:00:00"] = (Store.mk [] [], 0) :=
  ⟨rfl, C10_missing_asset _ _ _ _ _ _ rfl⟩

end TYS
